import Mathlib

/-!
Shallow embedding of the appack-cli VM session lifecycle engine.

The definitions below are translated from the Rust sources:
  * `src/types/mod.rs`              — `AppSnapshotTriggerMode`
  * `src/types/app_installed.rs`    — `InstalledAppPackEntry`
  * `src/types/local_settings.rs`   — `get_app_installed`
  * `src/internal/helpers.rs`       — `has_snapshot`
  * `src/utils/qmp.rs`              — `take_snapshot_blocking`, `delete_snapshot_blocking`
  * `src/internal/launch.rs`        — boot-decision and teardown branches of `launch`,
                                      the QMP-readiness wait, the appack-socket broker.

Effectful calls (QMP command execution, process spawning, socket I/O) are modelled by
explicit scripts/traces: the QMP session is a record of the responses the hypervisor
would return, and side effects are collected in an event list.
-/

/-- Rust `AppSnapshotTriggerMode` from `src/types/mod.rs`. -/
inductive AppSnapshotTriggerMode
  | OnClose
  | Never
  | NeverLoad
deriving DecidableEq, Repr

/-- Snapshot entry of the block device's image info (qapi `SnapshotInfo`);
only the `name` field is consulted by the code. -/
structure SnapshotInfo where
  name : String
deriving DecidableEq, Repr

/-- The fields of qapi `BlockDeviceInfo` that the code reads: `node_name` and
`image.base.snapshots` (the latter flattened into one field here). -/
structure BlockDeviceInfo where
  node_name : Option String
  snapshots : Option (List SnapshotInfo)
deriving DecidableEq, Repr

/-- qapi `BlockInfo`: the code only looks at whether `inserted` data is present. -/
structure BlockInfo where
  inserted : Option BlockDeviceInfo
deriving DecidableEq, Repr

/-- qapi `JobStatus`, all variants. The code recognises `created`, `running`,
`waiting`, `pending` and `concluded`; everything else falls into its `_` arm. -/
inductive JobStatus
  | undefined
  | created
  | running
  | paused
  | ready
  | standby
  | waiting
  | pending
  | aborting
  | concluded
  | null
deriving DecidableEq, Repr

/-- qapi `JobInfo` as consumed by the polling loops: id, status, optional error. -/
structure JobInfo where
  id : String
  status : JobStatus
  error : Option String
deriving DecidableEq, Repr

/-- Errors returned by the snapshot client (`anyhow` errors in the source,
distinguished here by the message the code builds). -/
inductive QmpError
  | blockCountMismatch (n : Nat)
  | noInsertedData
  | noNodeName
  | snapshotNotFound (tag : String)
  | jobNotFound (jobId : String)
  | jobFailed (msg : String)
  | unknownJobState (jobId : String)
deriving DecidableEq, Repr

/-- The QMP mutation/query commands the snapshot client can issue
(`snapshot-save` / `snapshot-delete`, plus the initial `query-block`;
the repeated `query-jobs` polls are represented by the poll script). -/
inductive QmpCommand
  | queryBlock
  | snapshotSave (tag : String) (vmstate : String) (devices : List String) (jobId : String)
  | snapshotDelete (tag : String) (devices : List String) (jobId : String)
deriving DecidableEq, Repr

/-- A scripted QMP session: the `query-block` response and the successive
`query-jobs` responses the hypervisor would return to the polling loop. -/
structure QmpScript where
  blocks : List BlockInfo
  polls : List (List JobInfo)
deriving Repr

/-- Rust `jobs.into_iter().find(|j| j.id == job_name)` from the polling loops. -/
def findJob (jobs : List JobInfo) (jobId : String) : Option JobInfo :=
  jobs.find? (fun j => j.id == jobId)

/-- The `loop { query-jobs; match job.status { .. } }` polling loop shared by
`take_snapshot_blocking` and `delete_snapshot_blocking` (`src/utils/qmp.rs`).
`none` means the script ran out while the job was still in progress (the real
loop would keep sleeping and polling). -/
def pollJobLoop (jobId : String) : List (List JobInfo) → Option (Except QmpError Unit)
  | [] => none
  | jobs :: rest =>
    match findJob jobs jobId with
    | none => some (.error (.jobNotFound jobId))
    | some job =>
      match job.status with
      | .concluded =>
        match job.error with
        | some err => some (.error (.jobFailed err))
        | none => some (.ok ())
      | .created | .running | .waiting | .pending => pollJobLoop jobId rest
      | _ => some (.error (.unknownJobState jobId))

/-- The `query-block` prologue shared by both snapshot operations: filter blocks
with `inserted` data, require exactly one, extract its `BlockDeviceInfo`. -/
def singleInsertedBlock (blocks : List BlockInfo) : Except QmpError BlockDeviceInfo :=
  match blocks.filter (fun b => b.inserted.isSome) with
  | [b] =>
    match b.inserted with
    | some ins => .ok ins
    | none => .error .noInsertedData
  | other => .error (.blockCountMismatch other.length)

/-- Rust `take_snapshot_blocking` from `src/utils/qmp.rs`: `query-block`, require one
inserted block with a `node_name`, issue `snapshot-save` with job id
`{tag}-snapshot`, then poll the job to conclusion. Returns the outcome
(`none` = script exhausted while polling) and the commands issued. -/
def take_snapshot_blocking (s : QmpScript) (snapshotName : String) :
    Option (Except QmpError Unit) × List QmpCommand :=
  match singleInsertedBlock s.blocks with
  | .error e => (some (.error e), [.queryBlock])
  | .ok ins =>
    match ins.node_name with
    | none => (some (.error .noNodeName), [.queryBlock])
    | some node =>
      let jobName := snapshotName ++ "-snapshot"
      (pollJobLoop jobName s.polls,
        [.queryBlock, .snapshotSave snapshotName node [node] jobName])

/-- Rust `delete_snapshot_blocking` from `src/utils/qmp.rs`: like the save, but when
the block device reports a snapshot list it first requires the tag to be
present in it; note the `if let Some(snapshots)` guard — when no list is
reported, no presence check happens and the delete is issued anyway. -/
def delete_snapshot_blocking (s : QmpScript) (snapshotName : String) :
    Option (Except QmpError Unit) × List QmpCommand :=
  match singleInsertedBlock s.blocks with
  | .error e => (some (.error e), [.queryBlock])
  | .ok ins =>
    let presenceOk :=
      match ins.snapshots with
      | some snaps => snaps.any (fun sn => sn.name == snapshotName)
      | none => true
    if presenceOk then
      match ins.node_name with
      | none => (some (.error .noNodeName), [.queryBlock])
      | some node =>
        let jobName := snapshotName ++ "-del-snapshot"
        (pollJobLoop jobName s.polls,
          [.queryBlock, .snapshotDelete snapshotName [node] jobName])
    else
      (some (.error (.snapshotNotFound snapshotName)), [.queryBlock])

/-- The snapshot names the claim reasons about: the names of the snapshots the
block device reports, the absent field meaning no snapshots. -/
def reportedSnapshotNames (ins : BlockDeviceInfo) : List String :=
  (ins.snapshots.getD []).map SnapshotInfo.name

/-! ## Boot decision (`launch`, `src/internal/launch.rs` lines 344–385) -/

/-- Fatal launch errors distinguished by the messages `launch` builds. -/
inductive LaunchError
  | notPackagedCorrectly
  | vmDiedBeforeReady
  | qemuStatusCheckFailed
deriving DecidableEq, Repr

/-- Observable side effects of the pre-spawn/boot section of `launch`. -/
inductive LaunchEvent
  | checkSnap (tag : String)
  | spawnVM (cmd : String)
deriving DecidableEq, Repr

/-- The `match app_installed.snapshot_mode` boot block of `launch`, up to and
including the `qemu_command.spawn()` call. `hasTag` stands for the
`has_snapshot(tag, image)` results on the disk image; `cmd` is the substituted
qemu command string the block extends with `-loadvm` flags. The returned trace
records the `has_snapshot` checks performed and, on success, the spawn. -/
def bootPhase (mode : AppSnapshotTriggerMode) (hasTag : String → Bool) (cmd : String) :
    Except LaunchError String × List LaunchEvent :=
  match mode with
  | .NeverLoad => (.ok cmd, [.spawnVM cmd])
  | .Never =>
    if hasTag "appack-init" then
      let c := cmd ++ " -loadvm appack-init"
      (.ok c, [.checkSnap "appack-init", .spawnVM c])
    else
      (.error .notPackagedCorrectly, [.checkSnap "appack-init"])
  | .OnClose =>
    if hasTag "appack-onclose" then
      let c := cmd ++ " -loadvm appack-onclose"
      (.ok c, [.checkSnap "appack-onclose", .spawnVM c])
    else if hasTag "appack-init" then
      let c := cmd ++ " -loadvm appack-init"
      (.ok c, [.checkSnap "appack-onclose", .checkSnap "appack-init", .spawnVM c])
    else
      (.ok cmd, [.checkSnap "appack-onclose", .checkSnap "appack-init", .spawnVM cmd])

/-- The spec's boot decision (§4.2): cold boot or load a named tag. -/
inductive BootAction
  | ColdBoot
  | LoadTag (tag : String)
deriving DecidableEq, Repr

/-- Modelled from the spec (§4.2 boot decision table): `chooseBootAction` as a
pure function of the trigger mode and which of the two well-known tags exist.
Stated from the spec's words, to be compared with `bootPhase` (the embedding of
the source). -/
def chooseBootAction (mode : AppSnapshotTriggerMode) (hasOnclose hasInit : Bool) :
    Except LaunchError BootAction :=
  match mode with
  | .NeverLoad => .ok .ColdBoot
  | .Never =>
    if hasInit then .ok (.LoadTag "appack-init") else .error .notPackagedCorrectly
  | .OnClose =>
    if hasOnclose then .ok (.LoadTag "appack-onclose")
    else if hasInit then .ok (.LoadTag "appack-init")
    else .ok .ColdBoot

/-- Presence oracle for the two well-known tags (all other tags absent). -/
def hasTagFn (hasOnclose hasInit : Bool) : String → Bool :=
  fun t =>
    if t = "appack-onclose" then hasOnclose
    else if t = "appack-init" then hasInit
    else false

/-- How a boot decision rewrites the qemu command string in `launch`. -/
def applyBootAction (cmd : String) : BootAction → String
  | .ColdBoot => cmd
  | .LoadTag tag => cmd ++ (" -loadvm " ++ tag)

/-! ## Teardown decision (`launch`, `src/internal/launch.rs` lines 454–468) -/

/-- Snapshot operations issued by the teardown block of `launch`. -/
inductive TeardownEvent
  | deleteSnap (tag : String)
  | saveSnap (tag : String)
deriving DecidableEq, Repr

/-- The `match app_installed.snapshot_mode` teardown block of `launch`:
`OnClose` runs `let _ = delete_snapshot_blocking(.., "appack-onclose")` (result
discarded) then `take_snapshot_blocking(.., "appack-onclose")?` (result
propagated); every other mode does nothing. `deleteRes`/`saveRes` are the
outcomes those two calls would have. -/
def teardownPhase (mode : AppSnapshotTriggerMode)
    (deleteRes saveRes : Except QmpError Unit) :
    Except QmpError Unit × List TeardownEvent :=
  match mode with
  | .OnClose =>
    let _ := deleteRes
    (saveRes, [.deleteSnap "appack-onclose", .saveSnap "appack-onclose"])
  | _ => (.ok (), [])

/-! ## Session broker (`appack_server_logic`, `src/internal/launch.rs`)

The handler epilogue of `appack_server_logic` is NOT one atomic action: it is
`client_count_handler.fetch_sub(1)` followed by a separate
`let c = client_count_handler.load()` followed by
`if c == 0 { let _ = handler_tx.send(()) }` (lines 243-251), each an atomic
operation of its own, with arbitrary interleaving of the accept path's
`fetch_add(1)` and of other handlers in between. The model below keeps that
granularity: one event per atomic operation, per connection handler. -/

/-- Events of one broker session at the granularity of the source's atomic
operations, one connection handler per id `h`: `accept h` is the accept path's
`fetch_add(1)` for a freshly accepted connection; `sub h` is handler h's
`fetch_sub(1)`; `load h` is its subsequent, separate
`client_count_handler.load()`, recording the value read; `send h` is the
`if c == 0 { handler_tx.send(()) }` branch actually sending (only
enabled when the value h recorded was 0; a handler whose recorded value is
nonzero finishes with no observable event); `recv` is the listener's
`shutdown_rx.try_recv()` succeeding, after which it exits its loop and the
orchestrator proceeds to teardown. -/
inductive BrokerEvent
  | accept (h : Nat)
  | sub (h : Nat)
  | load (h : Nat)
  | send (h : Nat)
  | recv
deriving DecidableEq, Repr

/-- Broker-session state: the shared atomic live-connection counter, how many
shutdown signals handlers have sent into the channel, how many the listener
has received, plus the per-handler progress: which handler ids have been
accepted, which have executed their `fetch_sub`, the value each handler's
`load` returned, and which have sent. -/
structure BrokerState where
  count : Nat
  signals : Nat
  received : Nat
  accepted : List Nat
  subbed : List Nat
  loaded : List (Nat × Nat)
  sent : List Nat
deriving DecidableEq, Repr

def brokerInit : BrokerState := ⟨0, 0, 0, [], [], [], []⟩

/-- One atomic step of the broker session, from `appack_server_logic`:
`accept` increments the counter, `sub` decrements it, `load` records the
counter value the handler reads at that moment, `send` puts one signal into
the channel, `recv` takes one out. -/
def brokerStep (s : BrokerState) : BrokerEvent → BrokerState
  | .accept h => { s with count := s.count + 1, accepted := h :: s.accepted }
  | .sub h => { s with count := s.count - 1, subbed := h :: s.subbed }
  | .load h => { s with loaded := (h, s.count) :: s.loaded }
  | .send h => { s with signals := s.signals + 1, sent := h :: s.sent }
  | .recv => { s with received := s.received + 1 }

def brokerRunFrom (s : BrokerState) (es : List BrokerEvent) : BrokerState :=
  es.foldl brokerStep s

def brokerRun (es : List BrokerEvent) : BrokerState :=
  brokerRunFrom brokerInit es

/-- Which events can occur in a state — the program order of each handler
(accept, then its epilogue `sub`; `load`; conditional `send`, each at most
once) and the channel discipline (a receive needs a pending send): `send h` is
enabled exactly when the value handler h's `load` recorded was 0, since the
source only sends inside `if c == 0`. -/
def eventOk (s : BrokerState) : BrokerEvent → Bool
  | .accept h => !(s.accepted.contains h)
  | .sub h => s.accepted.contains h && !(s.subbed.contains h)
  | .load h => s.subbed.contains h && (List.lookup h s.loaded).isNone
  | .send h => (List.lookup h s.loaded == some 0) && !(s.sent.contains h)
  | .recv => decide (s.received < s.signals)

def validFrom (s : BrokerState) : List BrokerEvent → Bool
  | [] => true
  | e :: rest => eventOk s e && validFrom (brokerStep s e) rest

/-- A realisable interleaving of broker-session events from the initial
state. -/
def brokerValid (es : List BrokerEvent) : Bool :=
  validFrom brokerInit es

/-- The state facts preserved by every realisable step: receives never exceed
sends; one signal per entry of `sent`; no handler sends twice; a handler in
`sent` recorded a 0 from its load; a handler with a recorded load has done its
decrement. -/
structure BrokerInv (s : BrokerState) : Prop where
  recv_le : s.received ≤ s.signals
  sig_len : s.signals = s.sent.length
  nodup : s.sent.Nodup
  sent_loaded : ∀ h ∈ s.sent, List.lookup h s.loaded = some 0
  loaded_subbed : ∀ h, (List.lookup h s.loaded).isSome = true → h ∈ s.subbed

/-! ## QMP-socket readiness wait (`launch`, `src/internal/launch.rs` lines 397–428) -/

/-- One iteration's observations in the readiness loop: the `try_wait()` result
and, when the child is still running, whether `UnixStream::connect` succeeded. -/
inductive VmPoll
  | runningConnectOk
  | runningConnectErr
  | exited (status : Int)
  | checkErr
deriving DecidableEq, Repr

/-- The `loop { match qemu_child.try_wait() { .. } }` readiness wait: while the
child runs, a successful connect breaks out, a failed connect sleeps and
retries; a child that has exited (any status) is the fatal died-before-ready
error; a `try_wait` error is fatal too. `none` = script exhausted, still
retrying. -/
def awaitQmpReady : List VmPoll → Option (Except LaunchError Unit)
  | [] => none
  | .runningConnectOk :: _ => some (.ok ())
  | .runningConnectErr :: rest => awaitQmpReady rest
  | .exited _ :: _ => some (.error .vmDiedBeforeReady)
  | .checkErr :: _ => some (.error .qemuStatusCheckFailed)

/-- The readiness wait followed by `appack_server_logic`: the broker is started
iff the wait returned success (any error propagates out of `launch` first). -/
def readyThenStartBroker (polls : List VmPoll) :
    Option (Except LaunchError Unit) × Bool :=
  match awaitQmpReady polls with
  | some (.ok ()) => (some (.ok ()), true)
  | r => (r, false)

/-! ## Broker connect payload (`src/internal/launch.rs` lines 214–222 and 150–153) -/

/-- Rust `rdp_port.to_le_bytes()` for `rdp_port: u16` — the exact bytes the handler
thread writes to a freshly accepted connection (`stream.write_all`). -/
def serverConnectPayload (rdpPort : Nat) : List Nat :=
  [rdpPort % 256, rdpPort / 256 % 256]

/-- The client side: `read_exact` of a 2-byte buffer then
`u16::from_le_bytes`; anything but exactly 2 bytes fails the read. -/
def clientDecodePort : List Nat → Option Nat
  | [b0, b1] => some (b0 + b1 * 256)
  | _ => none

/-! ## `has_snapshot` (`src/internal/helpers.rs` lines 237–255) -/

/-- Rust `<&str>::starts_with` on character lists. -/
def leadsWith : List Char → List Char → Bool
  | [], _ => true
  | _ :: _, [] => false
  | p :: ps, h :: hs => p == h && leadsWith ps hs

/-- Rust `<&str>::contains(pat)` on character lists: some suffix of the
haystack starts with the pattern. -/
def strHasSub : List Char → List Char → Bool
  | [], pat => leadsWith pat []
  | h :: hs, pat => leadsWith pat (h :: hs) || strHasSub hs pat

/-- The decision of `has_snapshot` on the captured `qemu-img snapshot -lU` stdout:
`stdout.contains(&format!(" {snapshot_name} "))` — the tag name surrounded by
one space on each side. (The process spawn and its failure paths are outside
the decision this models.) -/
def has_snapshot (stdout : List Char) (snapshotName : List Char) : Bool :=
  strHasSub stdout (' ' :: (snapshotName ++ [' ']))

/-- The pattern `pat` occurs contiguously inside `hay`. -/
def OccursIn (pat hay : List Char) : Prop :=
  ∃ before after, hay = before ++ pat ++ after

/-! ## `get_app_installed` (`src/types/local_settings.rs`) -/

/-- Rust `InstalledAppPackEntry` from `src/types/app_installed.rs` (the optional
`description`/`desktop_entries` fields are irrelevant to lookup and omitted). -/
structure InstalledAppPackEntry where
  id : String
  version : String
  name : String
  image : String
  snapshot_mode : AppSnapshotTriggerMode
  qemu_command : String
  freerdp_command : String
deriving DecidableEq, Repr

/-- The two lookup errors of `get_app_installed`. -/
inductive GetAppError
  | notInstalled
  | multipleVersions
deriving DecidableEq, Repr

/-- The `matches`/`filtered` computation of `get_app_installed`: entries whose
`id` matches, further filtered by `version` when one is supplied. -/
def matchingEntries (installed : List InstalledAppPackEntry) (id : String)
    (version : Option String) : List InstalledAppPackEntry :=
  let m := installed.filter (fun i => i.id == id)
  match version with
  | some v => m.filter (fun i => i.version == v)
  | none => m

/-- Rust `get_app_installed` from `src/types/local_settings.rs` (the
`settings.get_installed()` file read is abstracted to the in-memory list it
yields): `match filtered.len() { 0 => not installed, 1 => the entry,
_ => multiple versions }`. -/
def get_app_installed (installed : List InstalledAppPackEntry) (id : String)
    (version : Option String) : Except GetAppError InstalledAppPackEntry :=
  match matchingEntries installed id version with
  | [] => .error .notInstalled
  | [e] => .ok e
  | _ => .error .multipleVersions

/-! ## Theorems -/

/-- C1: for every snapshot trigger mode and every combination of presence of
the `appack-onclose` and `appack-init` tags, the boot decision of `launch` is
exactly the §4.2 table: `NeverLoad` always cold-boots; `Never` loads
`appack-init` and is a fatal not-packaged-correctly error (with no VM spawn in
the trace) when it is absent; `OnClose` prefers `appack-onclose`, falls back to
`appack-init`, else cold-boots. The source's boot block refines the spec's
`chooseBootAction`. -/
theorem boot_decision_table (oc ini : Bool) (cmd : String) :
    ((bootPhase .NeverLoad (hasTagFn oc ini) cmd).1 = .ok cmd) ∧
    ((bootPhase .Never (hasTagFn oc ini) cmd).1 =
      if ini then .ok (cmd ++ (" -loadvm " ++ "appack-init"))
      else .error .notPackagedCorrectly) ∧
    ((bootPhase .OnClose (hasTagFn oc ini) cmd).1 =
      if oc then .ok (cmd ++ (" -loadvm " ++ "appack-onclose"))
      else if ini then .ok (cmd ++ (" -loadvm " ++ "appack-init"))
      else .ok cmd) ∧
    (∀ mode, (bootPhase mode (hasTagFn oc ini) cmd).1 =
      (chooseBootAction mode oc ini).map (applyBootAction cmd)) ∧
    (ini = false →
      (bootPhase .Never (hasTagFn oc ini) cmd).1 = .error .notPackagedCorrectly ∧
      ∀ c, LaunchEvent.spawnVM c ∉ (bootPhase .Never (hasTagFn oc ini) cmd).2) := by
  cases oc <;> cases ini <;>
    refine ⟨rfl, rfl, rfl,
      fun mode => by
        cases mode <;>
          simp [bootPhase, chooseBootAction, hasTagFn, applyBootAction, Except.map],
      fun h => ?_⟩
  · exact ⟨rfl, by intro c hc; simp [bootPhase, hasTagFn] at hc⟩
  · exact absurd h (by decide)
  · exact ⟨rfl, by intro c hc; simp [bootPhase, hasTagFn] at hc⟩
  · exact absurd h (by decide)

theorem boot_decision_table_witness :
    (bootPhase .Never (hasTagFn false false) "qemu-base").1 =
      .error .notPackagedCorrectly ∧
    ∀ c, LaunchEvent.spawnVM c ∉ (bootPhase .Never (hasTagFn false false) "qemu-base").2 :=
  (boot_decision_table false false "qemu-base").2.2.2.2 rfl

/-- C2: at teardown only `OnClose` touches snapshots — it issues the
best-effort delete of `appack-onclose` first and then the save, the overall
result being exactly the save's result (delete failure non-fatal, save failure
fatal); `Never` and `NeverLoad` issue no snapshot operation. -/
theorem teardown_snapshot_policy (deleteRes saveRes : Except QmpError Unit) :
    (teardownPhase .OnClose deleteRes saveRes =
      (saveRes, [.deleteSnap "appack-onclose", .saveSnap "appack-onclose"])) ∧
    (∀ mode, mode ≠ .OnClose → teardownPhase mode deleteRes saveRes = (.ok (), [])) := by
  refine ⟨rfl, fun mode h => ?_⟩
  cases mode
  · exact absurd rfl h
  · rfl
  · rfl

theorem teardown_snapshot_policy_witness :
    teardownPhase .OnClose (.error (.snapshotNotFound "appack-onclose")) (.ok ()) =
      (.ok (), [.deleteSnap "appack-onclose", .saveSnap "appack-onclose"]) ∧
    teardownPhase .Never (.ok ()) (.ok ()) = (.ok (), []) :=
  ⟨(teardown_snapshot_policy (.error (.snapshotNotFound "appack-onclose")) (.ok ())).1,
   (teardown_snapshot_policy (.ok ()) (.ok ())).2 .Never (by decide)⟩

/-- C8: the broker's on-connect payload is exactly 2 bytes — the display port
little-endian — and the client's `u16::from_le_bytes` decoding round-trips
every 16-bit port value the server is given. -/
theorem broker_port_roundtrip (port : Nat) (h : port < 65536) :
    (serverConnectPayload port).length = 2 ∧
    clientDecodePort (serverConnectPayload port) = some port := by
  refine ⟨rfl, ?_⟩
  show some (port % 256 + port / 256 % 256 * 256) = some port
  congr 1
  omega

theorem broker_port_roundtrip_witness :
    (serverConnectPayload 3389).length = 2 ∧
    clientDecodePort (serverConnectPayload 3389) = some 3389 :=
  broker_port_roundtrip 3389 (by decide)

/-- C5: the job-polling loop returns success only after observing a
`concluded` status with no error; a job concluded with an error returns that
exact error text as a `jobFailed` error; a status outside
{created, running, waiting, pending, concluded} yields an error rather than
success; a job id absent from the `query-jobs` response yields `jobNotFound`. -/
theorem poll_job_loop_spec (jobId : String) :
    (∀ polls, pollJobLoop jobId polls = some (.ok ()) →
      ∃ jobs, jobs ∈ polls ∧ ∃ j, findJob jobs jobId = some j ∧
        j.status = .concluded ∧ j.error = none) ∧
    (∀ jobs rest j err, findJob jobs jobId = some j → j.status = .concluded →
      j.error = some err →
      pollJobLoop jobId (jobs :: rest) = some (.error (.jobFailed err))) ∧
    (∀ jobs rest j, findJob jobs jobId = some j →
      j.status ≠ .created → j.status ≠ .running → j.status ≠ .waiting →
      j.status ≠ .pending → j.status ≠ .concluded →
      pollJobLoop jobId (jobs :: rest) = some (.error (.unknownJobState jobId))) ∧
    (∀ jobs rest, findJob jobs jobId = none →
      pollJobLoop jobId (jobs :: rest) = some (.error (.jobNotFound jobId))) := by
  refine ⟨?_, ?_, ?_, ?_⟩
  · intro polls
    induction polls with
    | nil => intro h; exact absurd h (by simp [pollJobLoop])
    | cons jobs rest ih =>
      intro h
      rw [pollJobLoop] at h
      cases hfind : findJob jobs jobId with
      | none => rw [hfind] at h; simp at h
      | some j =>
        rw [hfind] at h
        obtain ⟨jid, st, er⟩ := j
        cases st with
        | concluded =>
          cases her : er with
          | some e => rw [her] at h; simp at h
          | none =>
            exact ⟨jobs, List.mem_cons_self _ _,
              ⟨jid, .concluded, er⟩, hfind, rfl, her⟩
        | created =>
          obtain ⟨jobs', hmem, hrest⟩ := ih h
          exact ⟨jobs', List.mem_cons_of_mem _ hmem, hrest⟩
        | running =>
          obtain ⟨jobs', hmem, hrest⟩ := ih h
          exact ⟨jobs', List.mem_cons_of_mem _ hmem, hrest⟩
        | waiting =>
          obtain ⟨jobs', hmem, hrest⟩ := ih h
          exact ⟨jobs', List.mem_cons_of_mem _ hmem, hrest⟩
        | pending =>
          obtain ⟨jobs', hmem, hrest⟩ := ih h
          exact ⟨jobs', List.mem_cons_of_mem _ hmem, hrest⟩
        | undefined => simp at h
        | paused => simp at h
        | ready => simp at h
        | standby => simp at h
        | aborting => simp at h
        | null => simp at h
  · intro jobs rest j err hfind hstat herr
    rw [pollJobLoop, hfind]
    obtain ⟨jid, st, er⟩ := j
    subst hstat
    subst herr
    rfl
  · intro jobs rest j hfind h1 h2 h3 h4 h5
    rw [pollJobLoop, hfind]
    obtain ⟨jid, st, er⟩ := j
    cases st
    · rfl
    · exact absurd rfl h1
    · exact absurd rfl h2
    · rfl
    · rfl
    · rfl
    · exact absurd rfl h3
    · exact absurd rfl h4
    · rfl
    · exact absurd rfl h5
    · rfl
  · intro jobs rest hfind
    rw [pollJobLoop, hfind]

theorem poll_job_loop_spec_witness :
    (∃ jobs,
      jobs ∈ [[JobInfo.mk "snap-snapshot" .created none],
              [JobInfo.mk "snap-snapshot" .running none],
              [JobInfo.mk "snap-snapshot" .waiting none],
              [JobInfo.mk "snap-snapshot" .concluded none]] ∧
      ∃ j, findJob jobs "snap-snapshot" = some j ∧
        j.status = .concluded ∧ j.error = none) ∧
    pollJobLoop "snap-snapshot"
      [[JobInfo.mk "snap-snapshot" .concluded (some "disk full")]] =
      some (.error (.jobFailed "disk full")) ∧
    pollJobLoop "snap-snapshot" [[JobInfo.mk "snap-snapshot" .aborting none]] =
      some (.error (.unknownJobState "snap-snapshot")) ∧
    pollJobLoop "snap-snapshot" [[JobInfo.mk "other" .running none]] =
      some (.error (.jobNotFound "snap-snapshot")) :=
  ⟨(poll_job_loop_spec "snap-snapshot").1
      [[JobInfo.mk "snap-snapshot" .created none],
       [JobInfo.mk "snap-snapshot" .running none],
       [JobInfo.mk "snap-snapshot" .waiting none],
       [JobInfo.mk "snap-snapshot" .concluded none]] rfl,
   (poll_job_loop_spec "snap-snapshot").2.1
      [JobInfo.mk "snap-snapshot" .concluded (some "disk full")] []
      (JobInfo.mk "snap-snapshot" .concluded (some "disk full")) "disk full"
      rfl rfl rfl,
   (poll_job_loop_spec "snap-snapshot").2.2.1
      [JobInfo.mk "snap-snapshot" .aborting none] []
      (JobInfo.mk "snap-snapshot" .aborting none)
      rfl (by decide) (by decide) (by decide) (by decide) (by decide),
   (poll_job_loop_spec "snap-snapshot").2.2.2
      [JobInfo.mk "other" .running none] [] rfl⟩

/-- C7: if the VM process exits before the QMP socket ever accepts a
connection (every earlier iteration saw the child running and the connect
failing), the readiness wait returns the distinct fatal died-before-ready
error and the broker is never started; while the child keeps running with the
connect failing, the loop just keeps retrying and reports no error. -/
theorem vm_died_before_ready_spec :
    (∀ pre status rest, (∀ p ∈ pre, p = VmPoll.runningConnectErr) →
      awaitQmpReady (pre ++ VmPoll.exited status :: rest) =
        some (.error .vmDiedBeforeReady) ∧
      readyThenStartBroker (pre ++ VmPoll.exited status :: rest) =
        (some (.error .vmDiedBeforeReady), false)) ∧
    (∀ polls, (∀ p ∈ polls, p = VmPoll.runningConnectErr) →
      awaitQmpReady polls = none) := by
  constructor
  · intro pre status rest hpre
    induction pre with
    | nil => exact ⟨rfl, rfl⟩
    | cons p pre' ih =>
      have hp : p = VmPoll.runningConnectErr := hpre p (List.mem_cons_self _ _)
      subst hp
      have hpre' : ∀ q ∈ pre', q = VmPoll.runningConnectErr :=
        fun q hq => hpre q (List.mem_cons_of_mem _ hq)
      obtain ⟨h1, _⟩ := ih hpre'
      have hstep : awaitQmpReady
          (VmPoll.runningConnectErr :: (pre' ++ VmPoll.exited status :: rest)) =
          awaitQmpReady (pre' ++ VmPoll.exited status :: rest) := rfl
      refine ⟨hstep.trans h1, ?_⟩
      show readyThenStartBroker
        (VmPoll.runningConnectErr :: (pre' ++ VmPoll.exited status :: rest)) = _
      rw [readyThenStartBroker, hstep, h1]
  · intro polls hall
    induction polls with
    | nil => rfl
    | cons p rest ih =>
      have hp : p = VmPoll.runningConnectErr := hall p (List.mem_cons_self _ _)
      subst hp
      exact ih fun q hq => hall q (List.mem_cons_of_mem _ hq)

theorem vm_died_before_ready_witness :
    (awaitQmpReady ([VmPoll.runningConnectErr] ++ VmPoll.exited 1 :: []) =
      some (.error .vmDiedBeforeReady) ∧
     readyThenStartBroker ([VmPoll.runningConnectErr] ++ VmPoll.exited 1 :: []) =
      (some (.error .vmDiedBeforeReady), false)) ∧
    awaitQmpReady [VmPoll.runningConnectErr, VmPoll.runningConnectErr] = none :=
  ⟨vm_died_before_ready_spec.1 [VmPoll.runningConnectErr] 1 [] (by decide),
   vm_died_before_ready_spec.2 [VmPoll.runningConnectErr, VmPoll.runningConnectErr]
     (by decide)⟩

theorem brokerRunFrom_append (s : BrokerState) (xs ys : List BrokerEvent) :
    brokerRunFrom s (xs ++ ys) = brokerRunFrom (brokerRunFrom s xs) ys := by
  simp [brokerRunFrom, List.foldl_append]

theorem validFrom_append (xs ys : List BrokerEvent) (s : BrokerState) :
    validFrom s (xs ++ ys) =
      (validFrom s xs && validFrom (brokerRunFrom s xs) ys) := by
  induction xs generalizing s with
  | nil => simp [validFrom, brokerRunFrom]
  | cons e rest ih =>
    simp [validFrom, brokerRunFrom, ih, Bool.and_assoc]

theorem lookup_cons_self (k b : Nat) (l : List (Nat × Nat)) :
    List.lookup k ((k, b) :: l) = some b := by
  simp [List.lookup]

theorem lookup_cons_ne (k k' b : Nat) (l : List (Nat × Nat)) (h : k' ≠ k) :
    List.lookup k' ((k, b) :: l) = List.lookup k' l := by
  have hb : (k' == k) = false := beq_eq_false_iff_ne.mpr h
  simp [List.lookup, hb]

theorem broker_inv_from (es : List BrokerEvent) (s : BrokerState)
    (hv : validFrom s es = true) (hs : BrokerInv s) :
    BrokerInv (brokerRunFrom s es) := by
  induction es generalizing s with
  | nil => simpa [brokerRunFrom] using hs
  | cons e rest ih =>
    rw [validFrom, Bool.and_eq_true] at hv
    obtain ⟨hok, hrest⟩ := hv
    have hrun : brokerRunFrom s (e :: rest) = brokerRunFrom (brokerStep s e) rest := rfl
    rw [hrun]
    refine ih (brokerStep s e) hrest ?_
    obtain ⟨recv_le, sig_len, nodup, sent_loaded, loaded_subbed⟩ := hs
    cases e with
    | accept h =>
      exact ⟨recv_le, sig_len, nodup, sent_loaded, loaded_subbed⟩
    | sub h =>
      refine ⟨recv_le, sig_len, nodup, sent_loaded, fun h' hl => ?_⟩
      exact List.mem_cons_of_mem _ (loaded_subbed h' hl)
    | load h =>
      simp only [eventOk, Bool.and_eq_true] at hok
      have hsubbed : h ∈ s.subbed := by simpa using hok.1
      have hnone : List.lookup h s.loaded = none :=
        Option.isNone_iff_eq_none.mp hok.2
      refine ⟨recv_le, sig_len, nodup, ?_, ?_⟩
      · intro h' hmem
        have hold := sent_loaded h' hmem
        show List.lookup h' ((h, s.count) :: s.loaded) = some 0
        by_cases hh : h' = h
        · subst hh
          rw [hold] at hnone
          exact absurd hnone (by simp)
        · rw [lookup_cons_ne _ _ _ _ hh]
          exact hold
      · intro h' hl
        show h' ∈ s.subbed
        by_cases hh : h' = h
        · subst hh; exact hsubbed
        · rw [show (brokerStep s (.load h)).loaded = (h, s.count) :: s.loaded from rfl,
            lookup_cons_ne _ _ _ _ hh] at hl
          exact loaded_subbed h' hl
    | send h =>
      simp only [eventOk, Bool.and_eq_true, beq_iff_eq, Bool.not_eq_true'] at hok
      have hnot : h ∉ s.sent := by simpa using hok.2
      refine ⟨Nat.le_succ_of_le recv_le, ?_, ?_, ?_, loaded_subbed⟩
      · show s.signals + 1 = (h :: s.sent).length
        simp [sig_len]
      · exact List.nodup_cons.mpr ⟨hnot, nodup⟩
      · intro h' hmem
        rcases List.mem_cons.mp hmem with rfl | hmem'
        · exact hok.1
        · exact sent_loaded h' hmem'
    | recv =>
      simp only [eventOk, decide_eq_true_eq] at hok
      refine ⟨?_, sig_len, nodup, sent_loaded, loaded_subbed⟩
      show s.received + 1 ≤ s.signals
      omega

theorem loaded_origin (es : List BrokerEvent) : ∀ h v : Nat,
    brokerValid es = true →
    List.lookup h (brokerRun es).loaded = some v →
    ∃ a b, es = a ++ BrokerEvent.load h :: b ∧
      (brokerRun a).count = v ∧ h ∈ (brokerRun a).subbed := by
  induction es using List.reverseRecOn with
  | nil =>
    intro h v _ hl
    exact absurd hl (by simp [brokerRun, brokerRunFrom, brokerInit, List.lookup])
  | append_singleton es' e ih =>
    intro h v hvld hl
    have hv' : brokerValid es' = true := by
      rw [brokerValid, validFrom_append, Bool.and_eq_true] at hvld
      exact hvld.1
    have hok : eventOk (brokerRun es') e = true := by
      rw [brokerValid, validFrom_append, Bool.and_eq_true] at hvld
      have h2 := hvld.2
      rw [validFrom, Bool.and_eq_true] at h2
      exact h2.1
    have hstep : brokerRun (es' ++ [e]) = brokerStep (brokerRun es') e := by
      rw [brokerRun, brokerRunFrom_append]; rfl
    rw [hstep] at hl
    cases e with
    | load h' =>
      by_cases hh : h = h'
      · subst hh
        rw [show (brokerStep (brokerRun es') (.load h)).loaded =
            (h, (brokerRun es').count) :: (brokerRun es').loaded from rfl,
          lookup_cons_self] at hl
        injection hl with hv2
        simp only [eventOk, Bool.and_eq_true] at hok
        exact ⟨es', [], rfl, hv2, by simpa using hok.1⟩
      · rw [show (brokerStep (brokerRun es') (.load h')).loaded =
            (h', (brokerRun es').count) :: (brokerRun es').loaded from rfl,
          lookup_cons_ne _ _ _ _ hh] at hl
        obtain ⟨a, b, heq, hcount, hsub⟩ := ih h v hv' hl
        exact ⟨a, b ++ [.load h'], by rw [heq, List.append_assoc]; rfl, hcount, hsub⟩
    | accept h' =>
      rw [show (brokerStep (brokerRun es') (.accept h')).loaded =
        (brokerRun es').loaded from rfl] at hl
      obtain ⟨a, b, heq, hcount, hsub⟩ := ih h v hv' hl
      exact ⟨a, b ++ [.accept h'], by rw [heq, List.append_assoc]; rfl, hcount, hsub⟩
    | sub h' =>
      rw [show (brokerStep (brokerRun es') (.sub h')).loaded =
        (brokerRun es').loaded from rfl] at hl
      obtain ⟨a, b, heq, hcount, hsub⟩ := ih h v hv' hl
      exact ⟨a, b ++ [.sub h'], by rw [heq, List.append_assoc]; rfl, hcount, hsub⟩
    | send h' =>
      rw [show (brokerStep (brokerRun es') (.send h')).loaded =
        (brokerRun es').loaded from rfl] at hl
      obtain ⟨a, b, heq, hcount, hsub⟩ := ih h v hv' hl
      exact ⟨a, b ++ [.send h'], by rw [heq, List.append_assoc]; rfl, hcount, hsub⟩
    | recv =>
      rw [show (brokerStep (brokerRun es') .recv).loaded =
        (brokerRun es').loaded from rfl] at hl
      obtain ⟨a, b, heq, hcount, hsub⟩ := ih h v hv' hl
      exact ⟨a, b ++ [.recv], by rw [heq, List.append_assoc]; rfl, hcount, hsub⟩

/-- C6 (amended): for every realisable interleaving of the broker session's
atomic operations: a shutdown signal is sent only by a handler whose separate
load of the live-connection counter — performed after its own decrement —
returned 0, so the counter is 0 at the moment of that load and every signal
is preceded by the counter reaching 0; each handler sends at most one signal
(signals are exactly the distinct senders, all of them detached clients), so
at most one signal is sent per detaching client; and the listener receives —
hence teardown begins — only after at least one signal was sent. Because the
decrement, the load and the conditional send are three separate atomic steps,
the signal is not limited to a single emission per session and can be sent,
and teardown can begin, while the counter is positive (see the
counterexample). -/
theorem broker_signal_emission (es : List BrokerEvent) (hv : brokerValid es = true) :
    (∀ pre h post, es = pre ++ BrokerEvent.send h :: post →
      List.lookup h (brokerRun pre).loaded = some 0 ∧
      ∃ pre1 mid, pre = pre1 ++ BrokerEvent.load h :: mid ∧
        (brokerRun pre1).count = 0 ∧ h ∈ (brokerRun pre1).subbed) ∧
    ((brokerRun es).signals = (brokerRun es).sent.length ∧
      (brokerRun es).sent.Nodup ∧
      ∀ h ∈ (brokerRun es).sent, h ∈ (brokerRun es).subbed) ∧
    (brokerRun es).received ≤ (brokerRun es).signals := by
  have hinv : BrokerInv (brokerRun es) :=
    broker_inv_from es brokerInit hv
      ⟨Nat.le_refl 0, rfl, List.nodup_nil, by simp [brokerInit],
       by simp [brokerInit, List.lookup]⟩
  refine ⟨?_, ⟨hinv.sig_len, hinv.nodup, ?_⟩, hinv.recv_le⟩
  · intro pre h post hsplit
    rw [hsplit, brokerValid, validFrom_append, Bool.and_eq_true] at hv
    have hok : eventOk (brokerRun pre) (.send h) = true := by
      have h2 := hv.2
      rw [validFrom, Bool.and_eq_true] at h2
      exact h2.1
    simp only [eventOk, Bool.and_eq_true, beq_iff_eq] at hok
    exact ⟨hok.1, loaded_origin pre h 0 hv.1 hok.1⟩
  · intro h hmem
    refine hinv.loaded_subbed h ?_
    rw [hinv.sent_loaded h hmem]
    rfl

theorem broker_signal_emission_witness :
    List.lookup 0 (brokerRun [BrokerEvent.accept 0, BrokerEvent.sub 0,
      BrokerEvent.load 0]).loaded = some 0 ∧
    (∃ pre1 mid,
      [BrokerEvent.accept 0, BrokerEvent.sub 0, BrokerEvent.load 0] =
        pre1 ++ BrokerEvent.load 0 :: mid ∧
      (brokerRun pre1).count = 0 ∧ 0 ∈ (brokerRun pre1).subbed) ∧
    (brokerRun [BrokerEvent.accept 0, BrokerEvent.sub 0, BrokerEvent.load 0,
        BrokerEvent.send 0]).received ≤
      (brokerRun [BrokerEvent.accept 0, BrokerEvent.sub 0, BrokerEvent.load 0,
        BrokerEvent.send 0]).signals := by
  have h := broker_signal_emission
    [BrokerEvent.accept 0, BrokerEvent.sub 0, BrokerEvent.load 0, BrokerEvent.send 0]
    (by decide)
  obtain ⟨hsend, -, hrecv⟩ := h
  have h1 := hsend [BrokerEvent.accept 0, BrokerEvent.sub 0, BrokerEvent.load 0] 0 [] rfl
  exact ⟨h1.1, h1.2, hrecv⟩

/-- C6 counterexample: realisable interleavings of the source's separate
atomic operations falsify the claim's quantitative parts. Two clients
attaching and detaching one after the other send two signals, and so do two
concurrent handler epilogues whose loads both observe 0 — so the signal is
not emitted at most once, and in the concurrent trace handler 0's decrement
is not a 1→0 transition (it leaves the counter at 1) yet handler 0 sends. A
client attaching between a handler's zero-load and its send leaves the
counter at 1 when the signal is sent, so a signal is emitted while the
connection count is greater than 0; and when the listener receives just then,
teardown begins while the counter is nonzero. -/
theorem broker_signal_claim_counterexample :
    (brokerValid [.accept 0, .sub 0, .load 0, .send 0,
        .accept 1, .sub 1, .load 1, .send 1] = true ∧
      (brokerRun [.accept 0, .sub 0, .load 0, .send 0,
        .accept 1, .sub 1, .load 1, .send 1]).signals = 2) ∧
    (brokerValid [.accept 0, .accept 1, .sub 0, .sub 1, .load 0, .load 1,
        .send 0, .send 1] = true ∧
      (brokerRun [.accept 0, .accept 1, .sub 0, .sub 1, .load 0, .load 1,
        .send 0, .send 1]).signals = 2 ∧
      (brokerRun [.accept 0, .accept 1, .sub 0]).count = 1) ∧
    (brokerValid [.accept 0, .sub 0, .load 0, .accept 1, .send 0] = true ∧
      (brokerRun [.accept 0, .sub 0, .load 0, .accept 1, .send 0]).signals = 1 ∧
      (brokerRun [.accept 0, .sub 0, .load 0, .accept 1, .send 0]).count = 1) ∧
    (brokerValid [.accept 0, .sub 0, .load 0, .accept 1, .send 0, .recv] = true ∧
      (brokerRun [.accept 0, .sub 0, .load 0, .accept 1, .send 0, .recv]).received = 1 ∧
      (brokerRun [.accept 0, .sub 0, .load 0, .accept 1, .send 0, .recv]).count = 1) := by
  decide

/-- C3 counterexample: with the tag `appack-onclose` already present in the
block device's snapshot list, `take_snapshot_blocking` still submits the
`snapshot-save` job and (the job concluding cleanly) returns success — it does
not fail fast, and no snapshot-exists error exists in its error set. -/
theorem take_snapshot_exists_counterexample :
    "appack-onclose" ∈ reportedSnapshotNames
      ⟨some "disk0", some [⟨"appack-onclose"⟩]⟩ ∧
    take_snapshot_blocking
      ⟨[⟨some ⟨some "disk0", some [⟨"appack-onclose"⟩]⟩⟩],
       [[⟨"appack-onclose-snapshot", .concluded, none⟩]]⟩
      "appack-onclose" =
      (some (.ok ()),
       [.queryBlock,
        .snapshotSave "appack-onclose" "disk0" ["disk0"] "appack-onclose-snapshot"]) := by
  exact ⟨by simp [reportedSnapshotNames], rfl⟩

/-- C3 (amended): `take_snapshot_blocking` performs no tag-existence
pre-check: whenever the `query-block` prologue yields a single inserted block
with a node name, it submits the `snapshot-save` job — whether or not the tag
already exists in the reported snapshot list — and its result is exactly the
job-poll outcome. A second call with the same tag therefore submits a second
job; a pre-existing tag can only surface through the job's reported error. -/
theorem take_snapshot_no_precheck (s : QmpScript) (tag : String)
    (ins : BlockDeviceInfo) (node : String)
    (hblock : singleInsertedBlock s.blocks = .ok ins)
    (hnode : ins.node_name = some node) :
    take_snapshot_blocking s tag =
      (pollJobLoop (tag ++ "-snapshot") s.polls,
       [.queryBlock, .snapshotSave tag node [node] (tag ++ "-snapshot")]) := by
  simp only [take_snapshot_blocking, hblock, hnode]

theorem take_snapshot_no_precheck_witness :
    take_snapshot_blocking
      ⟨[⟨some ⟨some "disk1", some [⟨"appack-init"⟩]⟩⟩],
       [[⟨"appack-init-snapshot", .running, none⟩],
        [⟨"appack-init-snapshot", .concluded, none⟩]]⟩
      "appack-init" =
      (pollJobLoop ("appack-init" ++ "-snapshot")
        [[⟨"appack-init-snapshot", .running, none⟩],
         [⟨"appack-init-snapshot", .concluded, none⟩]],
       [.queryBlock,
        .snapshotSave "appack-init" "disk1" ["disk1"] ("appack-init" ++ "-snapshot")]) :=
  take_snapshot_no_precheck
    ⟨[⟨some ⟨some "disk1", some [⟨"appack-init"⟩]⟩⟩],
     [[⟨"appack-init-snapshot", .running, none⟩],
      [⟨"appack-init-snapshot", .concluded, none⟩]]⟩
    "appack-init" ⟨some "disk1", some [⟨"appack-init"⟩]⟩ "disk1" rfl rfl

/-- C4 counterexample: when the block device reports no snapshot list at all
(the optional field absent, i.e. the image has no snapshots), the tag is
absent from the device's snapshot list, yet `delete_snapshot_blocking` skips
the presence check, issues the `snapshot-delete` command anyway and returns
the job outcome instead of a snapshot-not-found error. -/
theorem delete_snapshot_missing_list_counterexample :
    "appack-onclose" ∉ reportedSnapshotNames ⟨some "disk0", none⟩ ∧
    delete_snapshot_blocking
      ⟨[⟨some ⟨some "disk0", none⟩⟩],
       [[⟨"appack-onclose-del-snapshot", .concluded, none⟩]]⟩
      "appack-onclose" =
      (some (.ok ()),
       [.queryBlock,
        .snapshotDelete "appack-onclose" ["disk0"] "appack-onclose-del-snapshot"]) := by
  exact ⟨by simp [reportedSnapshotNames], rfl⟩

/-- C4 (amended): when the block device reports a snapshot list,
`delete_snapshot_blocking` fails with a snapshot-not-found error and issues no
`snapshot-delete` command if the tag is absent from that list; if the tag is
present it issues the delete and its result is the job-poll outcome. When no
snapshot list is reported, the delete is issued without any presence check. -/
theorem delete_snapshot_precheck (s : QmpScript) (tag : String)
    (ins : BlockDeviceInfo)
    (hblock : singleInsertedBlock s.blocks = .ok ins) :
    (∀ snaps, ins.snapshots = some snaps →
      (∀ sn ∈ snaps, sn.name ≠ tag) →
      delete_snapshot_blocking s tag =
        (some (.error (.snapshotNotFound tag)), [.queryBlock])) ∧
    (∀ snaps node, ins.snapshots = some snaps →
      ins.node_name = some node → (∃ sn ∈ snaps, sn.name = tag) →
      delete_snapshot_blocking s tag =
        (pollJobLoop (tag ++ "-del-snapshot") s.polls,
         [.queryBlock, .snapshotDelete tag [node] (tag ++ "-del-snapshot")])) ∧
    (∀ node, ins.snapshots = none → ins.node_name = some node →
      delete_snapshot_blocking s tag =
        (pollJobLoop (tag ++ "-del-snapshot") s.polls,
         [.queryBlock, .snapshotDelete tag [node] (tag ++ "-del-snapshot")])) := by
  refine ⟨?_, ?_, ?_⟩
  · intro snaps hsnaps habsent
    simp only [delete_snapshot_blocking, hblock, hsnaps]
    have hany : (snaps.any fun sn => sn.name == tag) = false := by
      rw [List.any_eq_false]
      intro sn hsn
      simpa using habsent sn hsn
    simp [hany]
  · intro snaps node hsnaps hnode hpresent
    simp only [delete_snapshot_blocking, hblock, hsnaps, hnode]
    have hany : (snaps.any fun sn => sn.name == tag) = true := by
      rw [List.any_eq_true]
      obtain ⟨sn, hsn, hname⟩ := hpresent
      exact ⟨sn, hsn, by simpa using hname⟩
    simp [hany]
  · intro node hsnaps hnode
    simp only [delete_snapshot_blocking, hblock, hsnaps, hnode]
    simp

theorem delete_snapshot_precheck_witness :
    delete_snapshot_blocking
      ⟨[⟨some ⟨some "disk2", some [⟨"appack-init"⟩]⟩⟩],
       [[⟨"appack-onclose-del-snapshot", .concluded, none⟩]]⟩
      "appack-onclose" =
      (some (.error (.snapshotNotFound "appack-onclose")), [.queryBlock]) ∧
    delete_snapshot_blocking
      ⟨[⟨some ⟨some "disk2", some [⟨"appack-init"⟩]⟩⟩],
       [[⟨"appack-init-del-snapshot", .concluded, none⟩]]⟩
      "appack-init" =
      (pollJobLoop ("appack-init" ++ "-del-snapshot")
        [[⟨"appack-init-del-snapshot", .concluded, none⟩]],
       [.queryBlock,
        .snapshotDelete "appack-init" ["disk2"] ("appack-init" ++ "-del-snapshot")]) :=
  ⟨(delete_snapshot_precheck
      ⟨[⟨some ⟨some "disk2", some [⟨"appack-init"⟩]⟩⟩],
       [[⟨"appack-onclose-del-snapshot", .concluded, none⟩]]⟩
      "appack-onclose" ⟨some "disk2", some [⟨"appack-init"⟩]⟩ rfl).1
      [⟨"appack-init"⟩] rfl (by decide),
   (delete_snapshot_precheck
      ⟨[⟨some ⟨some "disk2", some [⟨"appack-init"⟩]⟩⟩],
       [[⟨"appack-init-del-snapshot", .concluded, none⟩]]⟩
      "appack-init" ⟨some "disk2", some [⟨"appack-init"⟩]⟩ rfl).2.1
      [⟨"appack-init"⟩] "disk2" rfl rfl ⟨⟨"appack-init"⟩, by decide, rfl⟩⟩

theorem leadsWith_iff (pat : List Char) : ∀ hay,
    (leadsWith pat hay = true ↔ ∃ rest, hay = pat ++ rest) := by
  induction pat with
  | nil => intro hay; simp [leadsWith]
  | cons p ps ih =>
    intro hay
    cases hay with
    | nil => simp [leadsWith]
    | cons h hs =>
      rw [leadsWith, Bool.and_eq_true, beq_iff_eq, ih]
      constructor
      · rintro ⟨rfl, rest, rfl⟩
        exact ⟨rest, rfl⟩
      · rintro ⟨rest, heq⟩
        rw [List.cons_append] at heq
        injection heq with h1 h2
        exact ⟨h1.symm, rest, h2⟩

theorem strHasSub_iff (pat : List Char) : ∀ hay,
    (strHasSub hay pat = true ↔ OccursIn pat hay) := by
  intro hay
  induction hay with
  | nil =>
    rw [strHasSub, leadsWith_iff]
    constructor
    · rintro ⟨rest, heq⟩
      obtain ⟨h1, h2⟩ := List.append_eq_nil.mp heq.symm
      exact ⟨[], [], by simp [h1]⟩
    · rintro ⟨b, a, heq⟩
      refine ⟨[], ?_⟩
      have hb : b = [] := by
        cases b with
        | nil => rfl
        | cons x xs => simp at heq
      subst hb
      simp at heq ⊢
      exact heq.1.symm ▸ rfl
  | cons h hs ih =>
    rw [strHasSub, Bool.or_eq_true, leadsWith_iff, ih]
    constructor
    · rintro (⟨rest, heq⟩ | ⟨b, a, heq⟩)
      · exact ⟨[], rest, by simpa using heq⟩
      · exact ⟨h :: b, a, by simp [heq]⟩
    · rintro ⟨b, a, heq⟩
      cases b with
      | nil =>
        left
        exact ⟨a, by simpa using heq⟩
      | cons b0 bs =>
        right
        rw [List.cons_append, List.cons_append] at heq
        injection heq with h1 h2
        exact ⟨bs, a, by simpa using h2⟩

/-- C9: `has_snapshot` decides presence of a tag by searching the captured
`qemu-img snapshot -lU` stdout for the tag name surrounded by a single space
on each side — true exactly when that padded pattern occurs in the listing.
Consequently it reports a tag present when the name merely occurs
space-delimited inside other listing text (here a row for a snapshot named
`my appack-init backup`), and reports it absent when the name occurs without
a flanking space on both sides (here a tab-separated row). -/
theorem has_snapshot_space_delimited (stdout tag : List Char) :
    (has_snapshot stdout tag = true ↔ OccursIn (' ' :: (tag ++ [' '])) stdout) ∧
    has_snapshot "1 my appack-init backup 500M".toList "appack-init".toList = true ∧
    (strHasSub "1\tappack-init\t500M".toList "appack-init".toList = true ∧
     has_snapshot "1\tappack-init\t500M".toList "appack-init".toList = false) := by
  refine ⟨?_, by decide, by decide, by decide⟩
  rw [has_snapshot]
  exact strHasSub_iff (' ' :: (tag ++ [' '])) stdout

theorem has_snapshot_space_delimited_witness :
    OccursIn (' ' :: ("appack-init".toList ++ [' '])) " appack-init ".toList :=
  ((has_snapshot_space_delimited " appack-init ".toList "appack-init".toList).1).mp
    (by decide)

/-- C10: `get_app_installed` returns an entry exactly when the matching
computation — entries with the requested id, and the requested version when
one is supplied — yields exactly one entry; zero matches is the not-installed
error and two or more matches is the specify-a-version error, never an
arbitrary pick. -/
theorem get_app_installed_spec (installed : List InstalledAppPackEntry)
    (id : String) (version : Option String) :
    (∀ e, e ∈ matchingEntries installed id version ↔
      (e ∈ installed ∧ e.id = id ∧ ∀ v, version = some v → e.version = v)) ∧
    (∀ e, get_app_installed installed id version = .ok e ↔
      matchingEntries installed id version = [e]) ∧
    (matchingEntries installed id version = [] →
      get_app_installed installed id version = .error .notInstalled) ∧
    (2 ≤ (matchingEntries installed id version).length →
      get_app_installed installed id version = .error .multipleVersions) := by
  refine ⟨?_, ?_, ?_, ?_⟩
  · intro e
    cases version with
    | none => simp [matchingEntries, List.mem_filter]
    | some v =>
      simp only [matchingEntries, List.mem_filter, beq_iff_eq, Option.some.injEq,
        forall_eq']
      constructor
      · rintro ⟨⟨h1, h2⟩, h3⟩; exact ⟨h1, h2, h3⟩
      · rintro ⟨h1, h2, h3⟩; exact ⟨⟨h1, h2⟩, h3⟩
  · intro e
    cases hm : matchingEntries installed id version with
    | nil => simp [get_app_installed, hm]
    | cons x xs =>
      cases xs with
      | nil => simp [get_app_installed, hm]
      | cons y ys => simp [get_app_installed, hm]
  · intro h
    simp [get_app_installed, h]
  · intro h
    cases hm : matchingEntries installed id version with
    | nil => rw [hm] at h; simp at h
    | cons x xs =>
      cases xs with
      | nil => rw [hm] at h; simp at h
      | cons y ys => simp [get_app_installed, hm]

/-- Two installed versions of the same app, used to instantiate the lookup
theorem. -/
def entryV1 : InstalledAppPackEntry :=
  ⟨"someapp", "1.0", "Some App", "disk.qcow2", .OnClose, "qemu-cmd", "rdp-cmd"⟩

def entryV2 : InstalledAppPackEntry :=
  ⟨"someapp", "2.0", "Some App", "disk.qcow2", .OnClose, "qemu-cmd", "rdp-cmd"⟩

theorem get_app_installed_spec_witness :
    get_app_installed [entryV1, entryV2] "someapp" none = .error .multipleVersions ∧
    get_app_installed [entryV1, entryV2] "someapp" (some "2.0") = .ok entryV2 ∧
    get_app_installed [entryV1, entryV2] "otherapp" none = .error .notInstalled :=
  ⟨(get_app_installed_spec [entryV1, entryV2] "someapp" none).2.2.2 (by decide),
   ((get_app_installed_spec [entryV1, entryV2] "someapp" (some "2.0")).2.1 entryV2).mpr
     (by decide),
   (get_app_installed_spec [entryV1, entryV2] "otherapp" none).2.2.1 (by decide)⟩
